import Mathlib

/-!
Verification of the background RAG setup pipeline.

Shallow embedding of the repository's core modules:
* `src/background_state.py` — the thread-safe `BackgroundRAGState` status register
  and its four transition methods;
* `src/rag_setup.py` — ignore-pattern loading, the directory-upload walk
  (`upload_directory_to_gcs`), and the setup sequencing
  (`setup_rag_for_directory`);
* `src/coding_agent.py` — the background worker `_run_rag_background_setup`;
* `src/rag_tool.py` — the query tool closure `query_rag_codebase_impl`.

External collaborators (cloud storage, corpus service, generative model) are
modelled as behaviour oracles: each remote call is a value of `ExtResult`
describing whether the call returned normally or raised, supplied as input.
Python truthiness of optional strings (`if not corpus_name`, `x or y`) is
modelled explicitly: `none` and the empty string are both falsy.
-/

/-- The five setup phases, mirroring the `SetupStatus` literal type in
`src/background_state.py`. -/
inductive SetupStatus where
  | pending
  | running_setup
  | running_model_init
  | complete
  | failed
deriving DecidableEq, Repr

/-- Opaque handle standing for a `vertexai` `GenerativeModel` instance.  The
code never inspects a model beyond object identity / truthiness (a Python
object is always truthy), so a tagged handle is a faithful model. -/
structure GenerativeModel where
  handleId : Nat
deriving DecidableEq, Repr

/-- The shared state object of `src/background_state.py` (class
`BackgroundRAGState`).  The lock is not modelled: every getter and every
transition method holds the single lock for its whole body, so each method is
one atomic step on this record. -/
structure BackgroundRAGState where
  setup_status : SetupStatus
  error_message : Option String
  rag_corpus_name : Option String
  internal_rag_model : Option GenerativeModel
  project_id : String
  location : String
deriving DecidableEq, Repr

/-- `BackgroundRAGState.__init__`: status starts at `pending`, all optional
fields start at `None`. -/
def BackgroundRAGState.init (project_id location : String) : BackgroundRAGState :=
  { setup_status := .pending
    error_message := none
    rag_corpus_name := none
    internal_rag_model := none
    project_id := project_id
    location := location }

/-- `set_status_running_setup`: unconditionally enters `running_setup` and
clears the error message.  No guard; corpus name and model handle untouched. -/
def set_status_running_setup (st : BackgroundRAGState) : BackgroundRAGState :=
  { st with setup_status := .running_setup, error_message := none }

/-- `set_status_running_model_init`: guarded — only acts when the current
status is exactly `running_setup`; otherwise the whole call is a no-op. -/
def set_status_running_model_init (st : BackgroundRAGState) (corpus_name : String) :
    BackgroundRAGState :=
  if st.setup_status = .running_setup then
    { st with setup_status := .running_model_init
              rag_corpus_name := some corpus_name
              error_message := none }
  else st

/-- `set_status_complete`: guarded — only acts when the current status is
exactly `running_model_init`; otherwise the whole call is a no-op. -/
def set_status_complete (st : BackgroundRAGState) (model : GenerativeModel) :
    BackgroundRAGState :=
  if st.setup_status = .running_model_init then
    { st with setup_status := .complete
              internal_rag_model := some model
              error_message := none }
  else st

/-- `set_status_failed`: unconditional — records the error, enters `failed`,
and clears the stored model handle. -/
def set_status_failed (st : BackgroundRAGState) (error : String) : BackgroundRAGState :=
  { st with setup_status := .failed
            error_message := some error
            internal_rag_model := none }

/-- Membership of a character in a glob bracket set (the characters between
`[` and `]`), with `x-y` ranges as in `fnmatch`; a `-` that is first or last
in the set is a literal. -/
def inBracketSet : List Char → Char → Bool
  | [], _ => false
  | [x], c => x = c
  | x :: '-' :: y :: rest, c =>
    (decide (x ≤ c) && decide (c ≤ y)) || inBracketSet rest c
  | x :: rest, c => x = c || inBracketSet rest c

/-- Split a character list at the first `]`, returning the part before it and
the part after it; `none` when there is no `]`. -/
def splitAtRBracket : List Char → Option (List Char × List Char)
  | [] => none
  | ']' :: rest => some ([], rest)
  | c :: rest =>
    match splitAtRBracket rest with
    | some (a, b) => some (c :: a, b)
    | none => none

/-- Parse a glob bracket expression after an opening `[`, per `fnmatch`: an
optional leading `!` negates; a `]` directly after that is a literal member;
the set then runs to the next `]`.  Result: (negated, members, rest of the
pattern).  `none` when no closing `]` exists, in which case `[` is literal. -/
def parseBracketSet : List Char → Option (Bool × List Char × List Char)
  | '!' :: ']' :: rest =>
    match splitAtRBracket rest with
    | some (a, b) => some (true, ']' :: a, b)
    | none => none
  | '!' :: rest =>
    match splitAtRBracket rest with
    | some (a, b) => some (true, a, b)
    | none => none
  | ']' :: rest =>
    match splitAtRBracket rest with
    | some (a, b) => some (false, ']' :: a, b)
    | none => none
  | rest =>
    match splitAtRBracket rest with
    | some (a, b) => some (false, a, b)
    | none => none

/-- Glob matching of a whole string against a whole pattern (shell semantics
of Python's `fnmatch`): `*` matches any sequence including `/`, `?` any single
character, `[...]` a bracket set.  The `Nat` argument is recursion fuel; every
step shrinks pattern-length + string-length, so the fuel supplied by `fnmatch`
below is never exhausted. -/
def globMatchAux : Nat → List Char → List Char → Bool
  | 0, _, _ => false
  | _ + 1, [], s => s.isEmpty
  | fuel + 1, '*' :: ps, s =>
    globMatchAux fuel ps s ||
      (match s with
       | [] => false
       | _ :: s' => globMatchAux fuel ('*' :: ps) s')
  | fuel + 1, '?' :: ps, s =>
    (match s with
     | [] => false
     | _ :: s' => globMatchAux fuel ps s')
  | fuel + 1, '[' :: ps, s =>
    (match parseBracketSet ps with
     | some (neg, cls, rest) =>
       (match s with
        | [] => false
        | c :: s' =>
          (if neg then !(inBracketSet cls c) else inBracketSet cls c)
            && globMatchAux fuel rest s')
     | none =>
       (match s with
        | '[' :: s' => globMatchAux fuel ps s'
        | _ => false))
  | fuel + 1, c :: ps, s =>
    (match s with
     | [] => false
     | d :: s' => c = d && globMatchAux fuel ps s')

/-- `fnmatch.fnmatch(name, pat)` on a POSIX platform (where `normcase` is the
identity). -/
def fnmatch (name pat : String) : Bool :=
  globMatchAux (pat.length + name.length + 1) pat.data name.data

/-- `load_raw_ignore_patterns` from `src/utils.py`: the `.indexignore` content
(`none` when the file is absent), split into lines, stripped; blank lines and
lines starting with `#` dropped, every other line taken verbatim. -/
def load_raw_ignore_patterns (content : Option String) : List String :=
  match content with
  | none => []
  | some text =>
    ((text.splitOn "\n").map String.trim).filter
      (fun line => !line.isEmpty && !line.startsWith "#")

/-- The built-in default ignore patterns appended in
`upload_directory_to_gcs`. -/
def standard_ignores : List String :=
  [".git/", ".venv/", "venv/", "__pycache__/", "node_modules/", ".DS_Store"]

/-- Join relative-path segments with `/` (the slash-normalized relative path
produced by `Path(...).as_posix()` on entry names). -/
def joinPath (segs : List String) : String := String.intercalate "/" segs

/-- The directory ignore test of the upload walk: some pattern matches either
the slash-normalized relative path with `/` appended, or the bare entry
name. -/
def dirIgnored (patterns : List String) (relSegs : List String) (name : String) : Bool :=
  patterns.any (fun pat => fnmatch (joinPath relSegs ++ "/") pat || fnmatch name pat)

/-- The file ignore test of the upload walk: some pattern matches either the
slash-normalized relative path, or the bare filename. -/
def fileIgnored (patterns : List String) (relSegs : List String) (name : String) : Bool :=
  patterns.any (fun pat => fnmatch (joinPath relSegs) pat || fnmatch name pat)

/-- A local directory tree as `os.walk` sees it: each directory holds file
entries (with a flag telling whether the blob upload of that file succeeds —
the behaviour of the external storage client) and subdirectory entries. -/
inductive FSEntries where
  | nil : FSEntries
  | consFile (name : String) (uploadOk : Bool) (rest : FSEntries) : FSEntries
  | consDir (name : String) (contents : FSEntries) (rest : FSEntries) : FSEntries
deriving DecidableEq, Repr

/-- The observable outcome of the upload walk: the relative paths (as segment
lists) of uploaded files, files whose upload raised (counted as skipped),
ignored files, and ignored (pruned) directories.  The four counters logged by
`upload_directory_to_gcs` are the lengths of these lists. -/
structure WalkOut where
  uploaded_files : List (List String)
  skipped_files : List (List String)
  ignored_files : List (List String)
  ignored_dirs : List (List String)
deriving DecidableEq, Repr

def WalkOut.empty : WalkOut := ⟨[], [], [], []⟩

def mergeOut (a b : WalkOut) : WalkOut :=
  ⟨a.uploaded_files ++ b.uploaded_files, a.skipped_files ++ b.skipped_files,
   a.ignored_files ++ b.ignored_files, a.ignored_dirs ++ b.ignored_dirs⟩

/-- The record of one processed file: ignored when some pattern matches, else
uploaded when the storage call succeeds, else skipped (the raising upload is
caught and counted). -/
def fileOut (patterns : List String) (rel : List String) (f : String) (ok : Bool) : WalkOut :=
  if fileIgnored patterns (rel ++ [f]) f then ⟨[], [], [rel ++ [f]], []⟩
  else if ok then ⟨[rel ++ [f]], [], [], []⟩
  else ⟨[], [rel ++ [f]], [], []⟩

/-- The record of one pruned (ignored) directory. -/
def ignoredDirOut (rel : List String) (d : String) : WalkOut := ⟨[], [], [], [rel ++ [d]]⟩

/-- The per-directory file loop of `upload_directory_to_gcs`: each file is
matched against the patterns; ignored files are counted, otherwise an upload
is attempted and a raising upload is caught and counted as skipped. -/
def walkFiles (patterns : List String) (rel : List String) : FSEntries → WalkOut
  | .nil => .empty
  | .consDir _ _ rest => walkFiles patterns rel rest
  | .consFile f ok rest => mergeOut (fileOut patterns rel f ok) (walkFiles patterns rel rest)

/-- The per-directory pruning loop plus the (top-down) descent of `os.walk`:
an ignored directory is recorded and pruned (removed from the rebuilt
`dirs[:]`, so `os.walk` never yields anything under it); a kept directory is
descended into — its own subdirectories and files are processed at the
extended relative path. -/
def walkDirs (patterns : List String) (rel : List String) : FSEntries → WalkOut
  | .nil => .empty
  | .consFile _ _ rest => walkDirs patterns rel rest
  | .consDir d contents rest =>
    if dirIgnored patterns (rel ++ [d]) d then
      mergeOut (ignoredDirOut rel d) (walkDirs patterns rel rest)
    else
      mergeOut
        (mergeOut (walkDirs patterns (rel ++ [d]) contents)
          (walkFiles patterns (rel ++ [d]) contents))
        (walkDirs patterns rel rest)

/-- One visited directory of the walk: prune/record its subdirectories, then
process its files. -/
def walkTree (patterns : List String) (rel : List String) (entries : FSEntries) : WalkOut :=
  mergeOut (walkDirs patterns rel entries) (walkFiles patterns rel entries)

/-- Names of the directory entries of one directory. -/
def dirNames : FSEntries → List String
  | .nil => []
  | .consFile _ _ rest => dirNames rest
  | .consDir d _ rest => d :: dirNames rest

/-- Every relative path the walk ever records, in any of the four counters. -/
def allPaths (out : WalkOut) : List (List String) :=
  out.uploaded_files ++ out.skipped_files ++ out.ignored_files ++ out.ignored_dirs

/-- `upload_directory_to_gcs` from `src/rag_setup.py`.  `fs` is the target
directory (`none` when the path is not a directory, which raises
`FileNotFoundError`, modelled as `Except.error`); `indexignore` is the content
of `.indexignore` when present.  The walk's counters are computed and logged
but do not flow into the return value: the function returns the GCS
destination URI string. -/
def upload_directory_to_gcs (fs : Option FSEntries) (indexignore : Option String)
    (local_directory_path bucket_name gcs_dest : String) : Except String String :=
  match fs with
  | none => Except.error ("Local directory not found: " ++ local_directory_path)
  | some entries =>
    let ignore_patterns := load_raw_ignore_patterns indexignore ++ standard_ignores
    let _walk := walkTree ignore_patterns [] entries
    Except.ok ("gs://" ++ bucket_name ++ "/" ++ gcs_dest)

/-- The walk performed by `upload_directory_to_gcs` on a valid directory, with
the patterns it assembles (loaded patterns plus built-in defaults). -/
def uploadWalk (indexignore : Option String) (entries : FSEntries) : WalkOut :=
  walkTree (load_raw_ignore_patterns indexignore ++ standard_ignores) [] entries

/-- Outcome of one external (remote) call: returned normally, or raised. -/
inductive ExtResult (α : Type) where
  | ok (val : α)
  | raise (msg : String)
deriving DecidableEq, Repr

/-- Behaviour oracle for the external collaborators that
`setup_rag_for_directory` invokes: the Vertex SDK init, the idempotent bucket
ensure, the corpus find-or-create (returning the corpus resource name), and
the asynchronous file-import trigger. -/
structure SetupEnv where
  vertex_init : ExtResult Unit
  ensure_bucket : ExtResult Unit
  find_or_create_corpus : ExtResult String
  corpus_import : ExtResult Unit
deriving DecidableEq, Repr

/-- `setup_rag_for_directory` from `src/rag_setup.py`: validates config, marks
`running_setup`, then runs SDK init → bucket ensure → upload → corpus
find-or-create → import, converting every failure into a `failed` transition
plus a `none` return; on success returns the corpus resource name without
touching the status again. -/
def setup_rag_for_directory (env : SetupEnv) (fs : Option FSEntries)
    (indexignore : Option String) (local_directory_path gcs_bucket_name : String)
    (st : BackgroundRAGState) : BackgroundRAGState × Option String :=
  if st.project_id = "" then
    (set_status_failed st "Project ID missing.", none)
  else if gcs_bucket_name = "" then
    (set_status_failed st "GCS bucket name must be provided.", none)
  else
    match fs with
    | none =>
      (set_status_failed st
        ("Error: Provided path is not a valid directory: " ++ local_directory_path), none)
    | some entries =>
      let st1 := set_status_running_setup st
      match env.vertex_init with
      | .raise e =>
        (set_status_failed st1 ("Failed to initialize Vertex AI SDK: " ++ e), none)
      | .ok _ =>
        match env.ensure_bucket with
        | .raise e =>
          (set_status_failed st1
            ("Failed proceeding due to GCS bucket setup error: " ++ e), none)
        | .ok _ =>
          match upload_directory_to_gcs (some entries) indexignore
              local_directory_path gcs_bucket_name "code_upload/" with
          | .error e => (set_status_failed st1 e, none)
          | .ok _gcs_uri =>
            match env.find_or_create_corpus with
            | .raise e =>
              (set_status_failed st1 ("Error finding or creating RAG Corpus: " ++ e), none)
            | .ok corpus_resource_name =>
              match env.corpus_import with
              | .raise e =>
                (set_status_failed st1
                  ("Error importing files into RAG Corpus " ++ corpus_resource_name
                    ++ ": " ++ e), none)
              | .ok _ => (st1, some corpus_resource_name)

/-- Python truthiness of an optional string: `None` and `""` are falsy
(`if not corpus_name:`). -/
def pyFalsyStr : Option String → Bool
  | none => true
  | some s => s.isEmpty

/-- Lines 95-99 of `src/coding_agent.py`: when setup returned a falsy corpus
name, force `failed` unless setup already recorded a failure. -/
def corpusNoneFallback (st : BackgroundRAGState) : BackgroundRAGState :=
  if st.setup_status ≠ .failed then
    set_status_failed st "Corpus setup returned None without explicit error."
  else st

/-- `_run_rag_background_setup` from `src/coding_agent.py`, the background
worker: run setup, bail out to `failed` on a falsy corpus name, otherwise mark
`running_model_init` and run the internal-model initialization
(`model_init`: its returned handle, `none` when it failed and returned
`None`, or `raise` for an exception reaching the worker's outermost
`except`, which converts it to `failed`).  The worker is a total function:
no exception escapes it. -/
def _run_rag_background_setup (env : SetupEnv)
    (model_init : ExtResult (Option GenerativeModel)) (fs : Option FSEntries)
    (indexignore : Option String) (target_dir bucket_name : String)
    (st : BackgroundRAGState) : BackgroundRAGState :=
  let r := setup_rag_for_directory env fs indexignore target_dir bucket_name st
  if pyFalsyStr r.2 then
    corpusNoneFallback r.1
  else
    let corpus_name := r.2.getD ""
    let st2 := set_status_running_model_init r.1 corpus_name
    match model_init with
    | .ok (some internal_model) => set_status_complete st2 internal_model
    | .ok none => set_status_failed st2 "Failed to initialize internal RAG model."
    | .raise e =>
      set_status_failed st2 ("Unexpected error in background RAG setup thread: " ++ e)

/-- The object returned by `internal_model.generate_content(query)`: its
`text` attribute may be absent or empty (both falsy in
`if response and response.text`). -/
structure GenResponse where
  text : Option String
deriving DecidableEq, Repr

/-- The structured result dictionary of the query tool, keyed by its `status`
field. -/
inductive QueryResult where
  | success (response : String)
  | loading (message : String)
  | error (error_message : String)
  | no_answer (message : String)
deriving DecidableEq, Repr

/-- The string value of each status literal (used by the tool's messages). -/
def statusText : SetupStatus → String
  | .pending => "pending"
  | .running_setup => "running_setup"
  | .running_model_init => "running_model_init"
  | .complete => "complete"
  | .failed => "failed"

/-- `query_rag_codebase_impl` from `src/rag_tool.py` (the closure returned by
`create_rag_tool_closure`).  `gen` is the behaviour of
`internal_model.generate_content`: the response object (possibly `None` /
without text) or an exception.  The tool reads the shared state and never
mutates it; it is a total function, so no exception propagates. -/
def query_rag_codebase_impl (gen : String → ExtResult (Option GenResponse))
    (background_state : BackgroundRAGState) (query : String) : QueryResult :=
  let status := background_state.setup_status
  let internal_model := background_state.internal_rag_model
  if status = .pending ∨ status = .running_setup ∨ status = .running_model_init then
    .loading ("RAG setup is still in progress (Status: " ++ statusText status
      ++ "). Please try again shortly.")
  else if status = .failed then
    let error_msg :=
      match background_state.error_message with
      | some msg => if msg.isEmpty then "Unknown error during RAG setup." else msg
      | none => "Unknown error during RAG setup."
    .error ("RAG setup failed: " ++ error_msg)
  else if status = .complete then
    match internal_model with
    | none => .error "Internal error: RAG setup complete but model unavailable."
    | some _ =>
      match gen query with
      | .raise e => .error ("An error occurred while querying the RAG model: " ++ e)
      | .ok none =>
        .no_answer "The RAG model could not find relevant information for the query."
      | .ok (some r) =>
        match r.text with
        | none => .no_answer "The RAG model could not find relevant information for the query."
        | some t =>
          if t.isEmpty then
            .no_answer "The RAG model could not find relevant information for the query."
          else .success t
  else
    .error ("Unexpected internal state: " ++ statusText status)

/-- One call to one of the four transition methods of `BackgroundRAGState`. -/
inductive Evt where
  | runSetup
  | runModelInit (corpus_name : String)
  | completeEvt (model : GenerativeModel)
  | failEvt (msg : String)
deriving DecidableEq, Repr

/-- Dispatch one transition-method call. -/
def applyEvt (st : BackgroundRAGState) : Evt → BackgroundRAGState
  | .runSetup => set_status_running_setup st
  | .runModelInit c => set_status_running_model_init st c
  | .completeEvt m => set_status_complete st m
  | .failEvt e => set_status_failed st e

/-- A sequence of transition-method calls applied in order. -/
def runEvts (st : BackgroundRAGState) (es : List Evt) : BackgroundRAGState :=
  es.foldl applyEvt st

/-- The invariant that actually holds of every reachable state: the model
handle is present whenever status is `complete`, and absent whenever status is
`pending` or `failed`.  (In `running_setup` / `running_model_init` the handle
may be present, because `set_status_running_setup` does not clear it.) -/
def ModelInv (st : BackgroundRAGState) : Prop :=
  (st.setup_status = .complete → st.internal_rag_model.isSome = true)
    ∧ ((st.setup_status = .pending ∨ st.setup_status = .failed) →
        st.internal_rag_model = none)

theorem modelInv_applyEvt (st : BackgroundRAGState) (e : Evt) (h : ModelInv st) :
    ModelInv (applyEvt st e) := by
  obtain ⟨h1, h2⟩ := h
  cases e with
  | runSetup =>
    constructor
    · intro hc; simp [applyEvt, set_status_running_setup] at hc
    · intro hp; simp [applyEvt, set_status_running_setup] at hp
  | runModelInit c =>
    by_cases hg : st.setup_status = .running_setup
    · constructor
      · intro hc; simp [applyEvt, set_status_running_model_init, hg] at hc
      · intro hp; simp [applyEvt, set_status_running_model_init, hg] at hp
    · simpa [applyEvt, set_status_running_model_init, hg] using ⟨h1, h2⟩
  | completeEvt m =>
    by_cases hg : st.setup_status = .running_model_init
    · constructor
      · intro hc; simp [applyEvt, set_status_complete, hg]
      · intro hp; simp [applyEvt, set_status_complete, hg] at hp
    · simpa [applyEvt, set_status_complete, hg] using ⟨h1, h2⟩
  | failEvt e =>
    constructor
    · intro hc; simp [applyEvt, set_status_failed] at hc
    · intro hp; simp [applyEvt, set_status_failed]

theorem modelInv_runEvts (es : List Evt) (st : BackgroundRAGState) (h : ModelInv st) :
    ModelInv (runEvts st es) := by
  induction es generalizing st with
  | nil => simpa [runEvts] using h
  | cons e rest ih =>
    have h1 : ModelInv (applyEvt st e) := modelInv_applyEvt st e h
    simpa [runEvts, List.foldl_cons] using ih (applyEvt st e) h1

theorem modelInv_init (pid loc : String) : ModelInv (BackgroundRAGState.init pid loc) := by
  constructor <;> simp [BackgroundRAGState.init]

/-- C1 (as stated in the claim) is refuted by this event sequence: after
`set_status_complete` installs a model, an unguarded `set_status_running_setup`
moves the status away from `complete` without clearing the handle. -/
theorem model_handle_iff_complete_cex :
    ¬ (∀ es : List Evt,
        ((runEvts (BackgroundRAGState.init "p" "l") es).internal_rag_model.isSome = true
          ↔ (runEvts (BackgroundRAGState.init "p" "l") es).setup_status = .complete)) := by
  intro h
  have hx := (h [.runSetup, .runModelInit "corpus", .completeEvt ⟨0⟩, .runSetup]).mp
    (by decide)
  exact absurd hx (by decide)

/-- C1 (amended): for every reachable state, the model handle is non-null
whenever status is `complete`, and null whenever status is `pending` or
`failed`; the handle may however survive into `running_setup` /
`running_model_init` because `set_status_running_setup` does not clear it. -/
theorem model_handle_status_invariant (pid loc : String) (es : List Evt) :
    ((runEvts (BackgroundRAGState.init pid loc) es).setup_status = .complete →
        (runEvts (BackgroundRAGState.init pid loc) es).internal_rag_model.isSome = true)
      ∧ (((runEvts (BackgroundRAGState.init pid loc) es).setup_status = .pending
            ∨ (runEvts (BackgroundRAGState.init pid loc) es).setup_status = .failed) →
          (runEvts (BackgroundRAGState.init pid loc) es).internal_rag_model = none) :=
  modelInv_runEvts es _ (modelInv_init pid loc)

/-- Witness for the amended C1 at a concrete run reaching `complete`. -/
theorem model_handle_status_invariant_witness :
    (runEvts (BackgroundRAGState.init "p" "l")
        [.runSetup, .runModelInit "corpus", .completeEvt ⟨0⟩]).internal_rag_model.isSome
      = true :=
  (model_handle_status_invariant "p" "l"
    [.runSetup, .runModelInit "corpus", .completeEvt ⟨0⟩]).1 (by decide)

/-- C2: the two guarded transitions are complete no-ops (the whole state is
unchanged, so in particular status, corpus name and error message) unless
their exact precondition status holds; attempting `running_model_init` from
`pending` leaves the status at `pending`.  Both are total functions, so
neither can raise. -/
theorem guarded_transitions_noop (st : BackgroundRAGState) (c : String)
    (m : GenerativeModel) :
    (st.setup_status ≠ .running_setup → set_status_running_model_init st c = st)
      ∧ (st.setup_status ≠ .running_model_init → set_status_complete st m = st)
      ∧ (st.setup_status = .pending →
          (set_status_running_model_init st c).setup_status = .pending) := by
  refine ⟨fun h => ?_, fun h => ?_, fun h => ?_⟩
  · simp [set_status_running_model_init, h]
  · simp [set_status_complete, h]
  · simp [set_status_running_model_init, h]

/-- Witness for C2 at the freshly constructed (`pending`) state. -/
theorem guarded_transitions_noop_witness :
    set_status_running_model_init (BackgroundRAGState.init "p" "l") "corpus"
      = BackgroundRAGState.init "p" "l" :=
  (guarded_transitions_noop (BackgroundRAGState.init "p" "l") "corpus" ⟨0⟩).1 (by decide)

/-- C3: `set_status_failed` is unconditional — from every state it enters
`failed`, stores the given message, and clears the model handle. -/
theorem set_status_failed_unconditional (st : BackgroundRAGState) (msg : String) :
    (set_status_failed st msg).setup_status = .failed
      ∧ (set_status_failed st msg).error_message = some msg
      ∧ (set_status_failed st msg).internal_rag_model = none := by
  refine ⟨rfl, rfl, rfl⟩

/-- C9: `set_status_running_setup` has no guard — from every state it enters
`running_setup` and clears the error message, while leaving both the corpus
name and the model handle untouched; in particular a model handle installed by
a previous `complete` survives the call. -/
theorem running_setup_unguarded (st : BackgroundRAGState) :
    (set_status_running_setup st).setup_status = .running_setup
      ∧ (set_status_running_setup st).error_message = none
      ∧ (set_status_running_setup st).internal_rag_model = st.internal_rag_model
      ∧ (set_status_running_setup st).rag_corpus_name = st.rag_corpus_name
      ∧ (∀ m, st.internal_rag_model = some m →
          (set_status_running_setup st).internal_rag_model = some m) := by
  refine ⟨rfl, rfl, rfl, rfl, fun m hm => ?_⟩
  simpa [set_status_running_setup] using hm

/-- Witness for C9: calling `set_status_running_setup` on a `complete` state
with a model installed keeps the model while moving the status. -/
theorem running_setup_unguarded_witness :
    (set_status_running_setup
        { BackgroundRAGState.init "p" "l" with
            setup_status := .complete
            internal_rag_model := some ⟨7⟩ }).internal_rag_model = some ⟨7⟩ :=
  (running_setup_unguarded
    { BackgroundRAGState.init "p" "l" with
        setup_status := .complete
        internal_rag_model := some ⟨7⟩ }).2.2.2.2 ⟨7⟩ rfl

theorem set_status_failed_status (st : BackgroundRAGState) (e : String) :
    (set_status_failed st e).setup_status = .failed := rfl

theorem set_status_running_setup_status (st : BackgroundRAGState) :
    (set_status_running_setup st).setup_status = .running_setup := rfl

theorem set_status_running_model_init_status (st : BackgroundRAGState) (c : String)
    (h : st.setup_status = .running_setup) :
    (set_status_running_model_init st c).setup_status = .running_model_init := by
  simp [set_status_running_model_init, h]

theorem set_status_complete_status (st : BackgroundRAGState) (m : GenerativeModel)
    (h : st.setup_status = .running_model_init) :
    (set_status_complete st m).setup_status = .complete := by
  simp [set_status_complete, h]

theorem corpusNoneFallback_failed (st : BackgroundRAGState) :
    (corpusNoneFallback st).setup_status = .failed := by
  unfold corpusNoneFallback
  split
  · rfl
  · next h => simpa using h

theorem setup_some_running_setup (env : SetupEnv) (fs : Option FSEntries)
    (indexignore : Option String) (lp b : String) (st : BackgroundRAGState) (c : String)
    (h : (setup_rag_for_directory env fs indexignore lp b st).2 = some c) :
    (setup_rag_for_directory env fs indexignore lp b st).1.setup_status
      = .running_setup := by
  obtain ⟨vi, eb, fc, ci⟩ := env
  unfold setup_rag_for_directory at h ⊢
  by_cases h1 : st.project_id = "" <;> simp [h1] at h ⊢
  by_cases h2 : b = "" <;> simp [h2] at h ⊢
  cases fs with
  | none => simp at h
  | some entries =>
    cases vi with
    | raise e => simp at h
    | ok u =>
      cases eb with
      | raise e => simp at h
      | ok u2 =>
        cases fc with
        | raise e => simp [upload_directory_to_gcs] at h ⊢
        | ok corpusName =>
          cases ci with
          | raise e => simp [upload_directory_to_gcs] at h ⊢
          | ok u3 => simp [upload_directory_to_gcs, set_status_running_setup_status]

/-- C4: for every behaviour of the external collaborators (every combination
of the setup phase's remote calls succeeding or raising, the corpus name
being present, absent or empty, and the model initialization returning a
handle, returning None, or raising into the worker's outermost except), the
worker function terminates with the shared status equal to `complete` or
`failed` — never `pending`, `running_setup` or `running_model_init` — and,
being a total function, never lets an exception escape. -/
theorem worker_terminal_status (env : SetupEnv)
    (model_init : ExtResult (Option GenerativeModel)) (fs : Option FSEntries)
    (indexignore : Option String) (target_dir bucket_name : String)
    (st : BackgroundRAGState) :
    (_run_rag_background_setup env model_init fs indexignore target_dir bucket_name
        st).setup_status = .complete
      ∨ (_run_rag_background_setup env model_init fs indexignore target_dir bucket_name
          st).setup_status = .failed := by
  unfold _run_rag_background_setup
  by_cases hf : pyFalsyStr
      (setup_rag_for_directory env fs indexignore target_dir bucket_name st).2 = true
  · simp [hf, corpusNoneFallback_failed]
  · simp only [hf, Bool.false_eq_true, if_false]
    cases hr : (setup_rag_for_directory env fs indexignore target_dir bucket_name st).2 with
    | none => simp [pyFalsyStr, hr] at hf
    | some c =>
      have hrs : (setup_rag_for_directory env fs indexignore target_dir
          bucket_name st).1.setup_status = .running_setup :=
        setup_some_running_setup env fs indexignore target_dir bucket_name st c hr
      have hmi : (set_status_running_model_init
          (setup_rag_for_directory env fs indexignore target_dir bucket_name st).1
          ((some c).getD "")).setup_status = .running_model_init :=
        set_status_running_model_init_status _ _ hrs
      cases model_init with
      | raise e => right; simp [set_status_failed_status]
      | ok mo =>
        cases mo with
        | none => right; simp [set_status_failed_status]
        | some m => left; exact set_status_complete_status _ m hmi

/-- C5 (counterexample): the upload operation's return value is the same GCS
URI string for two walks with different counts, so it cannot be (or carry)
the record of the four counts. -/
theorem upload_return_value_cex :
    upload_directory_to_gcs (some (.consFile "a.py" true .nil)) none "/code" "bkt"
        "code_upload/"
      = upload_directory_to_gcs (some .nil) none "/code" "bkt" "code_upload/"
    ∧ (uploadWalk none (.consFile "a.py" true .nil)).uploaded_files.length
        ≠ (uploadWalk none .nil).uploaded_files.length := by
  constructor
  · rfl
  · decide

/-- C5 (amended): on a valid directory the upload operation computes the four
counts during the walk (they are logged) but returns the GCS destination URI
string `gs://bucket/prefix`, not the counts record. -/
theorem upload_returns_gcs_uri (fs : FSEntries) (indexignore : Option String)
    (local_directory_path bucket_name gcs_dest : String) :
    upload_directory_to_gcs (some fs) indexignore local_directory_path bucket_name
        gcs_dest
      = Except.ok ("gs://" ++ bucket_name ++ "/" ++ gcs_dest) := rfl

theorem mem_allPaths_merge (p : List String) (a b : WalkOut) :
    p ∈ allPaths (mergeOut a b) ↔ p ∈ allPaths a ∨ p ∈ allPaths b := by
  simp only [allPaths, mergeOut, List.mem_append]
  tauto

theorem fileOut_paths (patterns : List String) (rel : List String) (f : String)
    (ok : Bool) (p : List String) (hp : p ∈ allPaths (fileOut patterns rel f ok)) :
    p = rel ++ [f] := by
  unfold fileOut at hp
  split at hp
  · simp [allPaths] at hp; exact hp
  · split at hp <;> · simp [allPaths] at hp; exact hp

theorem walkFiles_paths (patterns : List String) (rel : List String) (es : FSEntries) :
    ∀ p ∈ allPaths (walkFiles patterns rel es), ∃ f, p = rel ++ [f] := by
  induction es with
  | nil => simp [walkFiles, allPaths, WalkOut.empty]
  | consFile f ok rest ih =>
    intro p hp
    rw [walkFiles, mem_allPaths_merge] at hp
    rcases hp with hp | hp
    · exact ⟨f, fileOut_paths patterns rel f ok p hp⟩
    · exact ih p hp
  | consDir d contents rest ihc ihr =>
    intro p hp
    rw [walkFiles] at hp
    exact ihr p hp

theorem walkFiles_ignored_dirs (patterns : List String) (rel : List String)
    (es : FSEntries) : (walkFiles patterns rel es).ignored_dirs = [] := by
  induction es with
  | nil => rfl
  | consFile f ok rest ih =>
    rw [walkFiles]
    unfold fileOut
    split
    · simp [mergeOut, ih]
    · split <;> simp [mergeOut, ih]
  | consDir d contents rest ihc ihr => rw [walkFiles]; exact ihr

theorem walkDirs_paths (patterns : List String) (es : FSEntries) :
    ∀ (rel : List String), ∀ p ∈ allPaths (walkDirs patterns rel es),
      ∃ x s, p = rel ++ x :: s := by
  induction es with
  | nil => intro rel p hp; simp [walkDirs, allPaths, WalkOut.empty] at hp
  | consFile f ok rest ih =>
    intro rel p hp
    rw [walkDirs] at hp
    exact ih rel p hp
  | consDir d contents rest ihc ihr =>
    intro rel p hp
    rw [walkDirs] at hp
    split at hp
    · rw [mem_allPaths_merge] at hp
      rcases hp with hp | hp
      · simp [allPaths, ignoredDirOut] at hp
        exact ⟨d, [], hp⟩
      · exact ihr rel p hp
    · rw [mem_allPaths_merge, mem_allPaths_merge] at hp
      rcases hp with (hp | hp) | hp
      · obtain ⟨x, s, hx⟩ := ihc (rel ++ [d]) p hp
        exact ⟨d, x :: s, by simpa using hx⟩
      · obtain ⟨f, hf⟩ := walkFiles_paths patterns (rel ++ [d]) contents p hp
        exact ⟨d, [f], by simpa using hf⟩
      · exact ihr rel p hp

theorem mergeOut_ignored_dirs (a b : WalkOut) :
    (mergeOut a b).ignored_dirs = a.ignored_dirs ++ b.ignored_dirs := rfl

theorem ignored_dirs_subset_allPaths (out : WalkOut) (p : List String)
    (h : p ∈ out.ignored_dirs) : p ∈ allPaths out := by
  simp only [allPaths, List.mem_append]
  tauto

theorem walkTree_ignored_dirs (patterns : List String) (rel : List String)
    (es : FSEntries) :
    (walkTree patterns rel es).ignored_dirs = (walkDirs patterns rel es).ignored_dirs := by
  simp [walkTree, mergeOut_ignored_dirs, walkFiles_ignored_dirs]

theorem walkDirs_ignored_mem (patterns : List String) (es : FSEntries) :
    ∀ (rel : List String) (x : String),
      ((rel ++ [x]) ∈ (walkDirs patterns rel es).ignored_dirs
        ↔ x ∈ dirNames es ∧ dirIgnored patterns (rel ++ [x]) x = true) := by
  induction es with
  | nil => intro rel x; simp [walkDirs, WalkOut.empty, dirNames]
  | consFile f ok rest ih =>
    intro rel x
    rw [walkDirs]
    simpa [dirNames] using ih rel x
  | consDir d contents rest ihc ihr =>
    intro rel x
    rw [walkDirs]
    split
    · next hd =>
      simp only [mergeOut_ignored_dirs, ignoredDirOut, List.singleton_append]
      constructor
      · intro h
        rcases List.mem_cons.mp h with h | h
        · have hxd : x = d := by simpa using h
          subst hxd
          exact ⟨by simp [dirNames], hd⟩
        · obtain ⟨h1, h2⟩ := (ihr rel x).mp h
          exact ⟨by simp [dirNames, h1], h2⟩
      · rintro ⟨h1, h2⟩
        by_cases hxd : x = d
        · subst hxd
          exact List.mem_cons_self _ _
        · have h1' : x ∈ dirNames rest := by
            simpa [dirNames, hxd] using h1
          exact List.mem_cons_of_mem _ ((ihr rel x).mpr ⟨h1', h2⟩)
    · next hd =>
      have hsub : (rel ++ [x]) ∉ (walkDirs patterns (rel ++ [d]) contents).ignored_dirs := by
        intro hmem
        obtain ⟨y, s, hys⟩ := walkDirs_paths patterns contents (rel ++ [d]) _
          (ignored_dirs_subset_allPaths _ _ hmem)
        have hlen := congrArg List.length hys
        simp [List.length_append] at hlen
      simp only [mergeOut_ignored_dirs, walkFiles_ignored_dirs, List.append_nil]
      constructor
      · intro h
        rcases List.mem_append.mp h with h | h
        · exact absurd h hsub
        · obtain ⟨h1, h2⟩ := (ihr rel x).mp h
          exact ⟨by simp [dirNames, h1], h2⟩
      · rintro ⟨h1, h2⟩
        rcases List.mem_cons.mp (by simpa [dirNames] using h1) with h1' | h1'
        · subst h1'
          exact absurd h2 hd
        · exact List.mem_append.mpr (Or.inr ((ihr rel x).mpr ⟨h1', h2⟩))

theorem walkDirs_ignored_count (patterns : List String) (es : FSEntries) :
    ∀ (rel : List String) (x : String), dirIgnored patterns (rel ++ [x]) x = true →
      (walkDirs patterns rel es).ignored_dirs.count (rel ++ [x])
        = (dirNames es).count x := by
  induction es with
  | nil => intro rel x hx; simp [walkDirs, WalkOut.empty, dirNames]
  | consFile f ok rest ih =>
    intro rel x hx
    rw [walkDirs]
    simpa [dirNames] using ih rel x hx
  | consDir d contents rest ihc ihr =>
    intro rel x hx
    rw [walkDirs]
    split
    · next hd =>
      simp only [mergeOut_ignored_dirs, ignoredDirOut, List.singleton_append, dirNames]
      by_cases hxd : x = d
      · subst hxd
        simp [List.count_cons, ihr rel x hx]
      · have hne : rel ++ [x] ≠ rel ++ [d] := by simp [hxd]
        simp [List.count_cons, hxd, hne, ihr rel x hx]
    · next hd =>
      have hsub : (walkDirs patterns (rel ++ [d]) contents).ignored_dirs.count
          (rel ++ [x]) = 0 := by
        rw [List.count_eq_zero]
        intro hmem
        obtain ⟨y, s, hys⟩ := walkDirs_paths patterns contents (rel ++ [d]) _
          (ignored_dirs_subset_allPaths _ _ hmem)
        have hlen := congrArg List.length hys
        simp [List.length_append] at hlen
      have hxd : x ≠ d := by
        intro he
        subst he
        exact hd hx
      simp only [mergeOut_ignored_dirs, walkFiles_ignored_dirs, List.append_nil,
        List.count_append, hsub, dirNames]
      simp [List.count_cons, hxd, ihr rel x hx]

theorem walkDirs_pruned (patterns : List String) (es : FSEntries) :
    ∀ (rel : List String) (x : String), dirIgnored patterns (rel ++ [x]) x = true →
      ∀ p ∈ allPaths (walkDirs patterns rel es), (rel ++ [x]) <+: p → p = rel ++ [x] := by
  induction es with
  | nil => intro rel x hx p hp; simp [walkDirs, allPaths, WalkOut.empty] at hp
  | consFile f ok rest ih =>
    intro rel x hx p hp
    rw [walkDirs] at hp
    exact ih rel x hx p hp
  | consDir d contents rest ihc ihr =>
    intro rel x hx p hp hpre
    rw [walkDirs] at hp
    split at hp
    · rw [mem_allPaths_merge] at hp
      rcases hp with hp | hp
      · have hpd : p = rel ++ [d] := by
          simpa [allPaths, ignoredDirOut] using hp
        subst hpd
        exact (List.IsPrefix.eq_of_length hpre (by simp)).symm
      · exact ihr rel x hx p hp hpre
    · next hd =>
      rw [mem_allPaths_merge, mem_allPaths_merge] at hp
      rcases hp with (hp | hp) | hp
      · obtain ⟨y, s, hys⟩ := walkDirs_paths patterns contents (rel ++ [d]) p hp
        have hpd : (rel ++ [d]) <+: p := by
          rw [hys]
          exact (rel ++ [d]).prefix_append _
        have hxdeq : rel ++ [x] = rel ++ [d] :=
          List.IsPrefix.eq_of_length
            (List.prefix_of_prefix_length_le hpre hpd (by simp)) (by simp)
        have hxd : x = d := by simpa using hxdeq
        subst hxd
        exact absurd hx hd
      · obtain ⟨f, hf⟩ := walkFiles_paths patterns (rel ++ [d]) contents p hp
        have hpd : (rel ++ [d]) <+: p := by
          rw [hf]
          exact List.prefix_append _ _
        have hxdeq : rel ++ [x] = rel ++ [d] :=
          List.IsPrefix.eq_of_length
            (List.prefix_of_prefix_length_le hpre hpd (by simp)) (by simp)
        have hxd : x = d := by simpa using hxdeq
        subst hxd
        exact absurd hx hd
      · exact ihr rel x hx p hp hpre

/-- C6: during the walk of a directory visited at relative position `rel`, a
subdirectory entry named `d` is recorded as ignored exactly when some pattern
glob-matches the slash-joined relative path with `/` appended or the bare
name `d`; an ignored directory is counted exactly once, and no path under it
(strict extension of `rel ++ [d]`) is ever recorded anywhere — not uploaded,
not skipped, not counted as ignored file or ignored directory. -/
theorem ignored_dir_pruning (patterns : List String) (rel : List String)
    (es : FSEntries) (d : String) (hmem : d ∈ dirNames es)
    (hnodup : (dirNames es).Nodup) :
    ((rel ++ [d]) ∈ (walkTree patterns rel es).ignored_dirs
        ↔ dirIgnored patterns (rel ++ [d]) d = true)
      ∧ (dirIgnored patterns (rel ++ [d]) d = true →
          (walkTree patterns rel es).ignored_dirs.count (rel ++ [d]) = 1
            ∧ ∀ p ∈ allPaths (walkTree patterns rel es),
                (rel ++ [d]) <+: p → p = rel ++ [d]) := by
  constructor
  · rw [walkTree_ignored_dirs]
    have h1 := walkDirs_ignored_mem patterns es rel d
    constructor
    · intro h
      exact (h1.mp h).2
    · intro h
      exact h1.mpr ⟨hmem, h⟩
  · intro hig
    constructor
    · rw [walkTree_ignored_dirs, walkDirs_ignored_count patterns es rel d hig]
      exact List.count_eq_one_of_mem hnodup hmem
    · intro p hp hpre
      rw [walkTree, mem_allPaths_merge] at hp
      rcases hp with hp | hp
      · exact walkDirs_pruned patterns es rel d hig p hp hpre
      · obtain ⟨f, hf⟩ := walkFiles_paths patterns rel es p hp
        subst hf
        exact (List.IsPrefix.eq_of_length hpre (by simp)).symm

/-- Witness for C6 on the spec's own test scenario: with patterns `*.log` and
`cache/`, the directory `cache` is recorded as ignored. -/
theorem ignored_dir_pruning_witness :
    ([] ++ ["cache"]) ∈ (walkTree ["*.log", "cache/"] []
        (.consFile "a.py" true (.consFile "b.log" true
          (.consDir "cache" (.consFile "x.py" true .nil) .nil)))).ignored_dirs :=
  (ignored_dir_pruning ["*.log", "cache/"] []
      (.consFile "a.py" true (.consFile "b.log" true
        (.consDir "cache" (.consFile "x.py" true .nil) .nil)))
      "cache" (by decide) (by decide)).1.mpr (by decide)

/-- C7: while status is `complete` with a model handle bound, the tool
returns `success` carrying exactly the non-empty text the model returned,
`no_answer` when the model returned no usable text (no response object, no
text attribute, or empty text), and converts a raising model call into a
structured `error` result — being a total function, it never propagates the
exception. -/
theorem query_complete_behavior (gen : String → ExtResult (Option GenResponse))
    (st : BackgroundRAGState) (q : String) (m : GenerativeModel)
    (hs : st.setup_status = .complete) (hm : st.internal_rag_model = some m) :
    (∀ t, t ≠ "" → gen q = .ok (some ⟨some t⟩) →
        query_rag_codebase_impl gen st q = .success t)
      ∧ ((gen q = .ok none ∨ gen q = .ok (some ⟨none⟩) ∨ gen q = .ok (some ⟨some ""⟩)) →
          query_rag_codebase_impl gen st q
            = .no_answer "The RAG model could not find relevant information for the query.")
      ∧ (∀ e, gen q = .raise e →
          query_rag_codebase_impl gen st q
            = .error ("An error occurred while querying the RAG model: " ++ e)) := by
  refine ⟨fun t ht hg => ?_, fun hg => ?_, fun e hg => ?_⟩
  · have ht' : t.isEmpty = false := by
      rw [Bool.eq_false_iff]
      simpa [String.isEmpty_iff] using ht
    simp [query_rag_codebase_impl, hs, hm, hg, ht']
  · rcases hg with hg | hg | hg
    · simp [query_rag_codebase_impl, hs, hm, hg]
    · simp [query_rag_codebase_impl, hs, hm, hg]
    · simp [query_rag_codebase_impl, hs, hm, hg]
      rfl
  · simp [query_rag_codebase_impl, hs, hm, hg]

/-- Witness for C7: a complete state with a bound model and a model returning
text `X` yields `success X`. -/
theorem query_complete_behavior_witness :
    query_rag_codebase_impl (fun _ => .ok (some ⟨some "X"⟩))
        { BackgroundRAGState.init "p" "l" with
            setup_status := .complete
            internal_rag_model := some ⟨1⟩ } "q" = .success "X" :=
  (query_complete_behavior (fun _ => .ok (some ⟨some "X"⟩))
      { BackgroundRAGState.init "p" "l" with
          setup_status := .complete
          internal_rag_model := some ⟨1⟩ } "q" ⟨1⟩ rfl rfl).1 "X" (by decide) rfl

/-- C8: while status is `pending`, `running_setup` or `running_model_init`
the tool returns a `loading` result whose message names the current status,
and the result does not depend on the model behaviour (no model call is
made); while status is `failed` it returns an `error` result carrying the
stored message, or the fixed fallback message when none is stored. -/
theorem query_loading_failed_behavior (gen gen' : String → ExtResult (Option GenResponse))
    (st : BackgroundRAGState) (q : String) :
    ((st.setup_status = .pending ∨ st.setup_status = .running_setup
        ∨ st.setup_status = .running_model_init) →
      query_rag_codebase_impl gen st q
          = .loading ("RAG setup is still in progress (Status: "
              ++ statusText st.setup_status ++ "). Please try again shortly.")
        ∧ query_rag_codebase_impl gen st q = query_rag_codebase_impl gen' st q)
      ∧ (st.setup_status = .failed →
          (∀ msg, msg ≠ "" → st.error_message = some msg →
            query_rag_codebase_impl gen st q = .error ("RAG setup failed: " ++ msg))
          ∧ (st.error_message = none →
            query_rag_codebase_impl gen st q
              = .error ("RAG setup failed: " ++ "Unknown error during RAG setup."))) := by
  constructor
  · intro hs
    constructor
    · rcases hs with hs | hs | hs <;> simp [query_rag_codebase_impl, hs]
    · rcases hs with hs | hs | hs <;> simp [query_rag_codebase_impl, hs]
  · intro hs
    constructor
    · intro msg hne hmsg
      have h' : msg.isEmpty = false := by
        rw [Bool.eq_false_iff]
        simpa [String.isEmpty_iff] using hne
      simp [query_rag_codebase_impl, hs, hmsg, h']
    · intro hmsg
      simp [query_rag_codebase_impl, hs, hmsg]

/-- Witness for C8 at the freshly constructed (`pending`) state, with two
different model behaviours giving the same `loading` result. -/
theorem query_loading_failed_behavior_witness :
    query_rag_codebase_impl (fun _ => .ok none) (BackgroundRAGState.init "p" "l") "q"
        = .loading ("RAG setup is still in progress (Status: "
            ++ statusText (BackgroundRAGState.init "p" "l").setup_status
            ++ "). Please try again shortly.")
      ∧ query_rag_codebase_impl (fun _ => .ok none) (BackgroundRAGState.init "p" "l") "q"
          = query_rag_codebase_impl (fun _ => .raise "boom")
              (BackgroundRAGState.init "p" "l") "q" :=
  (query_loading_failed_behavior (fun _ => .ok none) (fun _ => .raise "boom")
      (BackgroundRAGState.init "p" "l") "q").1 (Or.inl rfl)

/-- C10: while status is `complete` but the stored model handle is null, the
tool returns the internal-error result, independently of the model behaviour
(no model is invoked), and — being a total function — without raising. -/
theorem query_complete_missing_model (gen gen' : String → ExtResult (Option GenResponse))
    (st : BackgroundRAGState) (q : String)
    (hs : st.setup_status = .complete) (hm : st.internal_rag_model = none) :
    query_rag_codebase_impl gen st q
        = .error "Internal error: RAG setup complete but model unavailable."
      ∧ query_rag_codebase_impl gen st q = query_rag_codebase_impl gen' st q := by
  constructor <;> simp [query_rag_codebase_impl, hs, hm]

/-- Witness for C10: a complete state with no model handle yields the
internal-error result. -/
theorem query_complete_missing_model_witness :
    query_rag_codebase_impl (fun _ => .ok none)
        { BackgroundRAGState.init "p" "l" with setup_status := .complete } "q"
      = .error "Internal error: RAG setup complete but model unavailable." :=
  (query_complete_missing_model (fun _ => .ok none) (fun _ => .raise "boom")
      { BackgroundRAGState.init "p" "l" with setup_status := .complete } "q" rfl rfl).1
